import Mathlib

/-!
Verification of the pycterra_cli command-line front-end
(`src/pycterra_cli/__init__.py`).

The development shallowly embeds the parts of the program the claims are
about: the UUID validator `uuid_type`, the type-inference / per-parameter
processing logic of `parse_args`, the registry (`commands_map`) builder,
and the dispatcher `_handle_command`.  Python strings are Lean `String`s
(worked on through their `List Char` representation), machine-level detail
does not occur, and fallible code returns `Option`/`Except`.
-/

set_option autoImplicit false

namespace Pycterra

/-! ## Python string primitives used by the program -/

/-- Characters that Python `str.strip()` (and `int(…, 16)`) treat as whitespace
(ASCII fragment, which is all the program ever meets). -/
def isPySpace (c : Char) : Bool :=
  c = ' ' ∨ c = '\t' ∨ c = '\n' ∨ c = '\r' ∨ c = '\x0b' ∨ c = '\x0c'

/-- Strip characters satisfying `p` from both ends of a list
(Python `str.strip(…)` semantics). -/
def stripEnds (p : Char → Bool) (cs : List Char) : List Char :=
  ((cs.dropWhile p).reverse.dropWhile p).reverse

/-- Python `str.strip()` on a Lean `String`. -/
def pyStrip (s : String) : String :=
  String.mk (stripEnds isPySpace s.data)

/-- One fuelled step list for Python `str.replace(pat, repl)`: scans left to
right, replacing non-overlapping occurrences and continuing after each
replaced occurrence.  The fuel is an upper bound on the number of characters
still to scan; `pyReplaceAll` supplies `cs.length`, which is always enough
because every step consumes at least one character (for nonempty `pat`). -/
def replaceAllGo (pat repl : List Char) : Nat → List Char → List Char
  | _, [] => []
  | 0, cs => cs
  | fuel + 1, c :: rest =>
    if pat ≠ [] ∧ pat.isPrefixOf (c :: rest) then
      repl ++ replaceAllGo pat repl fuel ((c :: rest).drop pat.length)
    else
      c :: replaceAllGo pat repl fuel rest

/-- Python `str.replace(pat, repl)` for nonempty `pat` (every use site in the
program has a nonempty, constant pattern). -/
def pyReplaceAll (pat repl : List Char) (cs : List Char) : List Char :=
  replaceAllGo pat repl cs.length cs

/-- Python `str.replace(pat, "")` — remove every occurrence of `pat`. -/
def pyRemoveAll (pat : List Char) (cs : List Char) : List Char :=
  pyReplaceAll pat [] cs

/-- Python `s.startswith(pre)`. -/
def pyStartsWith (s pre : String) : Bool :=
  pre.data.isPrefixOf s.data

/-- Python `s.endswith(suf)`. -/
def pyEndsWith (s suf : String) : Bool :=
  suf.data.reverse.isPrefixOf s.data.reverse

/-- Python `s.split(sep)` for a one-character separator (every separator
the program uses is one character): split on each occurrence, keeping
empty pieces, never dropping the last piece. -/
def splitOnChar (sep : Char) : List Char → List (List Char)
  | [] => [[]]
  | c :: rest =>
    let r := splitOnChar sep rest
    if c = sep then [] :: r
    else
      match r with
      | [] => [[c]]
      | h :: t => (c :: h) :: t

/-! ## CPython `uuid.UUID(hex, version=4)` acceptance, and `uuid_type` -/

/-- Value of a hexadecimal digit, `none` for every other character
(the digits `int(…, 16)` accepts). -/
def hexVal? (c : Char) : Option Nat :=
  if 48 ≤ c.toNat ∧ c.toNat ≤ 57 then some (c.toNat - 48)
  else if 97 ≤ c.toNat ∧ c.toNat ≤ 102 then some (c.toNat - 87)
  else if 65 ≤ c.toNat ∧ c.toNat ≤ 70 then some (c.toNat - 55)
  else none

/-- `c` is a hexadecimal digit. -/
def isHexC (c : Char) : Bool :=
  (hexVal? c).isSome

/-- Continue parsing the digit part of `int(…, 16)` after the first digit:
single underscores are permitted strictly between digits (the CPython
numeric literal rule for `int` with an explicit base). -/
def goDigits : List Char → Nat → Option Nat
  | [], acc => some acc
  | c :: rest, acc =>
    if c = '_' then
      match rest with
      | [] => none
      | c2 :: r2 =>
        match hexVal? c2 with
        | some d => goDigits r2 (acc * 16 + d)
        | none => none
    else
      match hexVal? c with
      | some d => goDigits rest (acc * 16 + d)
      | none => none

/-- The optional sign of `int(s, 16)`: returns (the value is negated,
the remaining characters). -/
def stripSign (t : List Char) : Bool × List Char :=
  match t with
  | c :: r => if c = '-' then (true, r) else if c = '+' then (false, r) else (false, t)
  | [] => (false, t)

/-- The optional `0x`/`0X` prefix of `int(s, 16)`, together with the one
optional underscore permitted right after it. -/
def stripPfx (t : List Char) : List Char :=
  match t with
  | c0 :: c1 :: r =>
    if c0 = '0' ∧ (c1 = 'x' ∨ c1 = 'X') then
      match r with
      | '_' :: r2 => r2
      | _ => r
    else t
  | _ => t

/-- The digit run of `int(s, 16)`: at least one digit, then `goDigits`. -/
def parseDigits (t : List Char) : Option Nat :=
  match t with
  | [] => none
  | c :: r =>
    match hexVal? c with
    | none => none
    | some d => goDigits r d

/-- CPython `int(s, 16)`: optional surrounding whitespace, optional sign,
optional `0x`/`0X` prefix (with one optional underscore after it), then
hexadecimal digits with single underscores allowed between digits. -/
def pyIntHex16 (cs : List Char) : Option Int :=
  let t := stripEnds isPySpace cs
  let (neg, t1) := stripSign t
  (parseDigits (stripPfx t1)).map (fun v => if neg then -(v : Int) else (v : Int))

/-- CPython `uuid.UUID(hex=s)` acceptance (the `hex` branch of the constructor):
remove every occurrence of `"urn:"` then of `"uuid:"`, strip `{`/`}` from
both ends, remove every `-`, require exactly 32 remaining characters, parse
them with `int(…, 16)` and require the value to be a 128-bit nonnegative
integer.  `uuid_type` passes `version=4`, which passes the `1 ≤ v ≤ 5`
check and only *sets* the version/variant bits of the resulting value — it
can never reject, so it does not appear in the acceptance condition. -/
def uuidHexClean (s : String) : List Char :=
  pyRemoveAll ['-']
    (stripEnds (fun c => c = '\x7b' ∨ c = '\x7d')
      (pyRemoveAll ['u', 'u', 'i', 'd', ':']
        (pyRemoveAll ['u', 'r', 'n', ':'] s.data)))

/-- The length check, the base-16 parse and the 128-bit range check on the
cleaned-up characters. -/
def pyUUIDparse (s : String) : Option Nat :=
  if (uuidHexClean s).length = 32 then
    match pyIntHex16 (uuidHexClean s) with
    | some v => if 0 ≤ v ∧ v < (2 : Int) ^ 128 then some v.toNat else none
    | none => none
  else none

/-- A single-quote character (written via its code point). -/
def quoteC : Char := Char.ofNat 39

/-- A single-quote as a string. -/
def quoteS : String := String.mk [quoteC]

/-- `uuid_type` from the source: try `UUID(uuid_to_test, version=4)`; on
`ValueError` raise `argparse.ArgumentTypeError` (modelled as `.error`),
otherwise return `str(uuid_to_test)`, which for a `str` argument is the
argument itself, unchanged. -/
def uuid_type (s : String) : Except String String :=
  match pyUUIDparse s with
  | some _ => .ok s
  | none => .error ("invalid UUID value: " ++ quoteS ++ s ++ quoteS)

/-! ## The data model: annotations, literal values, defaults -/

/-- A value usable inside `typing.Literal[...]` (the program meets int, bool
and str literals; `isinstance(True, int)` holds in Python, which the
`isinstance` tests below reproduce). -/
inductive PyLit where
  | i (n : Int)
  | bl (b : Bool)
  | s (v : String)
  deriving DecidableEq, Repr

/-- A Python default value as it appears in a signature (opaque payload;
only presence/identity matter to the program). -/
inductive PyVal where
  | pynone
  | int (n : Int)
  | str (v : String)
  | bool (b : Bool)
  deriving DecidableEq, Repr

/-- A declared parameter annotation.  `opt t` is `typing.Optional[t]`, i.e.
`Union[t, NoneType]` as `typing.Optional` constructs it (the source
function `is_optional` handles general unions by taking the first non-`None` member;
every optional annotation the program meets has the `Union[t, None]` shape,
which `opt` models).  `cls name` is any other class (it has a `__name__`). -/
inductive PyType where
  | bool
  | int
  | float
  | str
  | noneT
  | opt (t : PyType)
  | literal (vals : List PyLit)
  | cls (name : String)
  deriving DecidableEq, Repr

/-- `is_optional` from the source: for a `Union[…]` containing `NoneType`,
return the first non-`None` member; otherwise `False` (here `none`). -/
def is_optional : PyType → Option PyType
  | .opt t => some t
  | _ => none

/-- `isinstance(lit, int)` (Python counts `bool` literals as `int`). -/
def litIsInt : PyLit → Bool
  | .i _ => true
  | .bl _ => true
  | .s _ => false

/-- `isinstance(lit, float)` — no literal value the program can meet is a
`float` instance (ints, bools and strs are not). -/
def litIsFloat : PyLit → Bool
  | _ => false

/-- `isinstance(lit, str)`. -/
def litIsStr : PyLit → Bool
  | .s _ => true
  | _ => false

/-- The command-line coercion recorded for a parameter: the value of the
`"action"` key (`argparse.BooleanOptionalAction`), or of the `"type"` key
(the `uuid_type` function, or a plain Python type object). -/
inductive Coe where
  | boolAction
  | uuidType
  | ofType (t : PyType)
  deriving DecidableEq, Repr

/-- The `__name__` attribute of a type object, when it has one
(`typing.Optional[…]`/`typing.Literal[…]` objects have none, and accessing
it raises `AttributeError`). -/
def pyTypeName : PyType → Option String
  | .bool => some "bool"
  | .int => some "int"
  | .float => some "float"
  | .str => some "str"
  | .noneT => some "NoneType"
  | .cls n => some n
  | .opt _ => none
  | .literal _ => none

/-- `__name__` of the object stored under the `"type"` key. -/
def coeName : Coe → Option String
  | .uuidType => some "uuid_type"
  | .ofType t => pyTypeName t
  | .boolAction => none

/-- One parameter of a method signature: name, annotation (`none` models
`inspect.Parameter.empty`), and default (`none` models a missing default). -/
structure ParamSpec where
  name : String
  ann : Option PyType
  default : Option PyVal
  deriving DecidableEq, Repr

/-- The `Literal` branch loop `for t in (int, float, str): if all(
isinstance(c, t) for c in choices): subcommand_args["type"] = t; break`. -/
def litTy (vals : List PyLit) : Option PyType :=
  if vals.all litIsInt then some .int
  else if vals.all litIsFloat then some .float
  else if vals.all litIsStr then some .str
  else none

/-- The type-inference chain of `parse_args` (lines 171-186), verbatim:
returns (the `"action"` key is set, the `"type"` key, the `choices` local
as set by the `Literal` branch). -/
def inferArgs (name : String) (ann : Option PyType) :
    Bool × Option Coe × Option (List PyLit) :=
  match ann with
  | none => (false, none, none)
  | some ty =>
    if ty = .bool ∨ ty = .opt .bool then (true, none, none)
    else if ty = .str ∧ pyEndsWith name "_id" then (false, some .uuidType, none)
    else if ty = .int ∨ ty = .float ∨ ty = .str then (false, some (.ofType ty), none)
    else
      match is_optional ty with
      | some inner => (false, some (.ofType inner), none)
      | none =>
        match ty with
        | .literal vals => (false, (litTy vals).map .ofType, some vals)
        | _ => (false, none, none)

/-! ## The `one of (…)` pattern on help text

The source matches help text against the anchored, case-insensitive
pattern: any characters, the literal words one of, an optional opening
paren, an optional whitespace, then one or more repetitions of (optional
single quote, word characters, optional single quote, optional comma,
optional whitespace) as the captured group; on success it records the
capture with single quotes removed, split on commas, each piece stripped.
The functions below reproduce the regex behaviour: the greedy leading
dot-star picks
the *last* start position at which the rest of the pattern matches (and can
not cross a newline), the optional paren/space and the token iterations are
greedy (no backtracking can succeed here because a quote, a paren or a space
can never start a `\w+` run). -/

/-- `\w` of the pattern: ASCII word character. -/
def isWordC (c : Char) : Bool :=
  c.isAlphanum ∨ c = '_'

/-- Case-insensitively consume the literal `pat` from the front of `cs`. -/
def dropCI (pat : List Char) (cs : List Char) : Option (List Char) :=
  match pat, cs with
  | [], rest => some rest
  | _ :: _, [] => none
  | p :: ps, c :: rest =>
    if p.toLower = c.toLower then dropCI ps rest else none

/-- One iteration of the captured group (optional quote, word run, optional
quote, optional comma, optional whitespace): returns the consumed
characters and the rest, or `none` when no word run is available. -/
def tokenOne (cs : List Char) : Option (List Char × List Char) :=
  let (q1, r1) :=
    match cs with
    | c :: r => if c = quoteC then ([c], r) else ([], cs)
    | [] => ([], cs)
  let ws := r1.takeWhile isWordC
  if ws = [] then none
  else
    let r2 := r1.drop ws.length
    let (q2, r3) :=
      match r2 with
      | c :: r => if c = quoteC then ([c], r) else ([], r2)
      | [] => ([], r2)
    let (cm, r4) :=
      match r3 with
      | ',' :: r => (([','] : List Char), r)
      | _ => ([], r3)
    let (sp, r5) :=
      match r4 with
      | c :: r => if isPySpace c then ([c], r) else ([], r4)
      | [] => ([], r4)
    some (q1 ++ ws ++ q2 ++ cm ++ sp, r5)

/-- Greedily iterate `tokenOne`; the fuel (`cs.length` at the call site) is
always enough because each iteration consumes at least one character. -/
def tokensLoop : Nat → List Char → List Char
  | 0, _ => []
  | fuel + 1, cs =>
    match tokenOne cs with
    | none => []
    | some (c, r) => c ++ tokensLoop fuel r

/-- The whole tail of the pattern from a candidate start position
(the words one of, optional paren, optional whitespace, then the token
iterations) — returns the captured group. -/
def oneOfTryAt (cs : List Char) : Option (List Char) :=
  match dropCI "one of ".data cs with
  | none => none
  | some rest =>
    let rest1 := match rest with
      | '(' :: r => r
      | _ => rest
    let rest2 := match rest1 with
      | c :: r => if isPySpace c then r else rest1
      | [] => rest1
    match tokenOne rest2 with
    | none => none
    | some (c, r) => some (c ++ tokensLoop rest2.length r)

/-- The greedy `.*` of the anchored pattern: try the latest start position
first; a start position is reachable only when no newline precedes it
(`.` does not match a newline). -/
def oneOfFromLast : List Char → Option (List Char)
  | [] => none
  | c :: rest =>
    (if c = '\n' then none else oneOfFromLast rest) <|> oneOfTryAt (c :: rest)

/-- Choices extracted from a help line by the `one of` pattern: the capture
with single quotes removed, split on commas, each piece stripped. -/
def oneOfChoices (help : String) : Option (List String) :=
  (oneOfFromLast help.data).map fun cap =>
    (splitOnChar ',' (cap.filter (fun c => c ≠ quoteC))).map
      (fun piece => pyStrip (String.mk piece))

/-! ## Per-parameter processing (`parse_args` lines 156-234) -/

/-- The `subcommand_args` dictionary built for one parameter, plus the
`choices` keyword: `required`, `default` (present only when the signature
has one), the `"action"` key, the `"type"` key, `choices`, `help`. -/
structure ArgSpec where
  required : Bool
  default : Option PyVal
  action : Bool
  type? : Option Coe
  choices : Option (List PyLit)
  help : Option String
  deriving DecidableEq, Repr

/-- Python truthiness of the `choices` local (`None` and `[]`/`()` are
falsy, a nonempty sequence is truthy). -/
def pyTruthy : Option (List PyLit) → Bool
  | some (_ :: _) => true
  | _ => false

/-- The docstring step of the parameter loop (lines 187-207).  Returns
`none` when the Python code would raise `AttributeError` while appending
the bracketed type suffix (a `"type"` value without `__name__`); otherwise
(recorded help, help-derived choices).  Key points transcribed from the
source: the branch runs only when the docstring line has a colon **and**
the `choices` local is falsy (`if len(split) >= 2 and not choices:`); the
bracketed suffix is appended to the help *before* the `one of` pattern is
run on it. -/
def helpStep (docLines : List String) (pname : String)
    (ty? : Option Coe) (choices0 : Option (List PyLit)) :
    Option (Option String × Option (List String)) :=
  match docLines.find? (fun l => pyStartsWith l pname) with
  | none => some (none, none)
  | some line =>
    match splitOnChar ':' line.data with
    | _ :: d1 :: _ =>
      if pyTruthy choices0 then some (none, none)
      else
        match ty? with
        | some c =>
          match coeName c with
          | none => none
          | some nm =>
            let h := pyStrip (String.mk d1) ++ " [" ++ nm ++ "]"
            some (some h, oneOfChoices h)
        | none =>
          let h := pyStrip (String.mk d1)
          some (some h, oneOfChoices h)
    | _ => some (none, none)

/-- Assemble one parameter: type inference, then the docstring step, then
the `if choices: subcommand_args["choices"] = choices` tail. -/
def processParam (docLines : List String) (p : ParamSpec) : Option ArgSpec :=
  let inf := inferArgs p.name p.ann
  match helpStep docLines p.name inf.2.1 inf.2.2 with
  | none => none
  | some (help?, hChoices) =>
    let choices1 : Option (List PyLit) :=
      match hChoices with
      | some cs => some (cs.map PyLit.s)
      | none => inf.2.2
    some { required := p.default.isNone
           default := p.default
           action := inf.1
           type? := inf.2.1
           choices := if pyTruthy choices1 then choices1 else none
           help := help? }

/-! ## The command registry (`commands_map`) builder (`parse_args` lines 100-236) -/

/-- `api_arg_to_cmd_arg` from the source: `fun.replace("_", "-")`
(a single-character replacement is a character map). -/
def api_arg_to_cmd_arg (s : String) : String :=
  String.mk (s.data.map (fun c => if c = '_' then '-' else c))

/-- `_cmd_arg_to_api_arg` from the source: `cmd.replace("-", "_")`. -/
def cmd_arg_to_api_arg (s : String) : String :=
  String.mk (s.data.map (fun c => if c = '-' then '_' else c))

/-- One inspectable method of the client type: the parameters of its signature
(with the implicit `self` still present, as `inspect` reports it) and its
docstring. -/
structure MethodSig where
  params : List ParamSpec
  doc : Option String
  deriving DecidableEq, Repr

/-- Docstring preparation (lines 131-135): split on newlines, keep the
stripped lines that are nonempty, with literal percent signs doubled. -/
def pyDocLines : Option String → List String
  | none => []
  | some d =>
    (splitOnChar '\n' d.data).filterMap fun l =>
      let t := pyStrip (String.mk l)
      if t = "" then none
      else some (String.mk (pyReplaceAll ['%'] ['%', '%'] t.data))

/-- The value recorded in `commands_map` for one parameter:
`subcommand_args.get("type", subcommand_args.get("action", None))`. -/
def regOf (p : ParamSpec) : Option Coe :=
  let (act, ty?, _) := inferArgs p.name p.ann
  match ty? with
  | some t => some t
  | none => if act then some .boolAction else none

/-- The shared `commands_map` global: a Python dict modelled as an
association list with insert-or-overwrite-in-place semantics. -/
abbrev CommandsMap : Type :=
  List (String × List (String × Option Coe))

/-- Python dict assignment `m[k] = v`: overwrite in place, else append. -/
def dinsert (k : String) (v : List (String × Option Coe)) :
    CommandsMap → CommandsMap
  | [] => [(k, v)]
  | (k2, v2) :: rest =>
    if k = k2 then (k, v) :: rest else (k2, v2) :: dinsert k v rest

/-- Python dict lookup `m[k]` (as an `Option`; the bare dispatcher
subscript raises `KeyError` on `none`). -/
def dlookup (k : String) : CommandsMap → Option (List (String × Option Coe))
  | [] => none
  | (k2, v2) :: rest => if k = k2 then some v2 else dlookup k rest

/-- The per-method parameter loop: the `self` entry is filtered out
(line 124), each remaining parameter is processed (propagating the
`AttributeError` crash as `none`) and its `commands_map` entry recorded. -/
def buildParams (docLines : List String) :
    List ParamSpec → Option (List (String × Option Coe))
  | [] => some []
  | p :: rest =>
    match processParam docLines p with
    | none => none
    | some _ =>
      match buildParams docLines rest with
      | none => none
      | some l => some ((p.name, regOf p) :: l)

/-- The recorded entries for one method (its non-`self` parameters). -/
def buildMethod (sig : MethodSig) : Option (List (String × Option Coe)) :=
  buildParams (pyDocLines sig.doc) (sig.params.filter (fun p => p.name ≠ "self"))

/-- The member loop of `parse_args` (lines 117-236) restricted to its
effect on `commands_map`: skip names with a leading underscore, and for
each public method store its parameter entries under the hyphenated name.
A crash while processing a method aborts the build (`none`). -/
def buildGo : List (String × MethodSig) → CommandsMap → Option CommandsMap
  | [], acc => some acc
  | (n, sig) :: rest, acc =>
    if pyStartsWith n "_" then buildGo rest acc
    else
      match buildMethod sig with
      | none => none
      | some regs => buildGo rest (dinsert (api_arg_to_cmd_arg n) regs acc)

/-- Build the registry from the members of the client type, starting from the
empty global (a fresh process). -/
def buildRegistry (members : List (String × MethodSig)) : Option CommandsMap :=
  buildGo members []

/-- The entries `buildMethod` records when it succeeds. -/
def methodRegs (sig : MethodSig) : List (String × Option Coe) :=
  (sig.params.filter (fun p => p.name ≠ "self")).map (fun p => (p.name, regOf p))

/-- The registry contents a successful build produces: one entry per
public member, keyed by the hyphenated name, in member order. -/
def publicsRegs (members : List (String × MethodSig)) : CommandsMap :=
  (members.filter (fun m => ¬pyStartsWith m.1 "_")).map
    (fun m => (api_arg_to_cmd_arg m.1, methodRegs m.2))

/-! ## The dispatcher `_handle_command` (lines 61-97) -/

/-- A value returned by an invoked client method. `page` is a
`client.ResultsPage` (materialised by `list(res)` before printing into
`listv`); `plain` is any other non-`None` value. -/
inductive RetVal where
  | page (items : List String)
  | listv (items : List String)
  | plain (repr : String)
  deriving DecidableEq, Repr

/-- `res = list(res) if isinstance(res, client.ResultsPage) else res`. -/
def materialize : RetVal → RetVal
  | .page items => .listv items
  | v => v

/-- How one client method call ends: a return value (possibly `None`), a
`client.APIError`, a `ValueError`, or any other exception. -/
inductive CallRes where
  | ret (v : Option RetVal)
  | apiErr (msg : String)
  | valueErr (msg : String)
  | otherExc (msg : String)
  deriving DecidableEq, Repr

/-- The external `APIClient` instance, abstracted to what the dispatcher
observes: whether `getattr` finds the method, and how calling it ends
(the collected keyword arguments do not influence the claims and are
abstracted away). -/
structure ClientModel where
  hasMethod : String → Bool
  call : String → CallRes

/-- Observable dispatcher actions, in program order.  `emit` is a log
record that actually passes the severity filter (the `logging` check
`record level ≥ effective level`); suppressed calls produce no event. -/
inductive Event where
  | setLevel (lvl : Nat)
  | emit (sev : Nat) (msg : String)
  | constructClient
  | getMethod (name : String)
  | callMethod (name : String)
  | printOut (v : RetVal)
  deriving DecidableEq, Repr

/-- How `_handle_command` ends: fall off the end (the process later exits
with status 0), `sys.exit(msg)` (prints `msg` to stderr and exits with
status 1, hence nonzero), or an uncaught exception (the bare
`KeyError` from the bare `commands_map[...]` lookup). -/
inductive Outcome where
  | normal
  | exitMsg (msg : String)
  | crash (msg : String)
  deriving DecidableEq, Repr

/-- The ANSI red wrapper `"\033[91m%s\033[00m" % err` used by every
`sys.exit` message. -/
def ansi (msg : String) : String :=
  "\x1b[91m" ++ msg ++ "\x1b[00m"

/-- The missing-credential message (the variable name is single-quoted in
the source string). -/
def keyErrMsg : String :=
  "Missing " ++ quoteS ++ "PICTERRA_API_KEY" ++ quoteS ++ " environment variable"

/-- Numeric logging severities (the constants of the `logging` module). -/
def sevDEBUG : Nat := 10
/-- `logging.INFO`. -/
def sevINFO : Nat := 20
/-- `logging.WARNING`. -/
def sevWARNING : Nat := 30
/-- `logging.ERROR`. -/
def sevERROR : Nat := 40
/-- `logging.CRITICAL`. -/
def sevCRITICAL : Nat := 50

/-- The verbosity step (lines 62-68): the `setLevel` events it performs and
the effective severity of the module logger afterwards.  Before any
`setLevel` the level of the logger is `NOTSET` and it delegates to the root
logger, which `logging.basicConfig(level=logging.CRITICAL)` set to
`CRITICAL` at import time — so at verbosity 0 the effective level stays
`CRITICAL`. -/
def verbEvents (v : Nat) : List Event × Nat :=
  if v = 0 then ([], sevCRITICAL)
  else if 3 ≤ v then ([.setLevel sevDEBUG], sevDEBUG)
  else if v = 2 then ([.setLevel sevINFO], sevINFO)
  else ([.setLevel sevWARNING], sevWARNING)

/-- A `logger.<level>(msg)` call under effective level `lvl`: emits exactly
when the severity of the record passes the filter. -/
def logAt (lvl sev : Nat) (msg : String) : List Event :=
  if lvl ≤ sev then [.emit sev msg] else []

/-- The parsed options the dispatcher receives: the verbosity count and the
chosen command (per-parameter values are abstracted into `ClientModel`). -/
structure Options where
  verbose : Nat
  command : String
  deriving DecidableEq, Repr

/-- `_handle_command`, transcribed statement by statement: verbosity, two
debug logs, the `PICTERRA_API_KEY` presence check (exit before anything
else on absence), the bare `commands_map[...]` lookup (a `KeyError` is
uncaught), client construction, then the `try` block — `getattr`, the info
log, the call — with `except (client.APIError, ValueError)` exiting via
`sys.exit` and `except Exception` logging at critical severity and falling
through.  `env` is the set of defined environment variable names. -/
def handle_command (reg : CommandsMap) (env : List String)
    (client : ClientModel) (o : Options) : List Event × Outcome :=
  let ev := verbEvents o.verbose
  let lvl := ev.2
  let pre := ev.1 ++ logAt lvl sevDEBUG "Logging level: " ++
    logAt lvl sevDEBUG "Handling command: "
  if "PICTERRA_API_KEY" ∈ env then
    match dlookup o.command reg with
    | none => (pre, .crash "KeyError")
    | some _params =>
      let pre2 := pre ++ logAt lvl sevDEBUG "Parameters are: " ++
        [Event.constructClient] ++ logAt lvl sevDEBUG "Instanciated API client"
      let m := cmd_arg_to_api_arg o.command
      if client.hasMethod m then
        let pre3 := pre2 ++ [Event.getMethod m] ++
          logAt lvl sevINFO "Executing " ++ [Event.callMethod m]
        match client.call m with
        | .ret none =>
          (pre3 ++ logAt lvl sevINFO "Method did not return anything", .normal)
        | .ret (some v) =>
          (pre3 ++ logAt lvl sevINFO "Method returned something" ++
            [Event.printOut (materialize v)], .normal)
        | .apiErr msg =>
          (pre3 ++ logAt lvl sevERROR ("Got error from API: " ++ msg),
            .exitMsg (ansi msg))
        | .valueErr msg =>
          (pre3 ++ logAt lvl sevERROR ("Got error from API: " ++ msg),
            .exitMsg (ansi msg))
        | .otherExc msg =>
          (pre3 ++ logAt lvl sevCRITICAL msg, .normal)
      else
        (pre2 ++ [Event.getMethod m] ++
          logAt lvl sevCRITICAL "AttributeError", .normal)
  else
    (pre ++ logAt lvl sevERROR "Missing API key",
      .exitMsg (ansi keyErrMsg))

/-- The effective logging severity after the verbosity step, as a function
of the count: 0 leaves the baseline (critical-only), 1 maps to warnings,
2 to informational, 3 or more to full diagnostic trace. -/
def levelOf (v : Nat) : Nat :=
  if v = 0 then sevCRITICAL
  else if 3 ≤ v then sevDEBUG
  else if v = 2 then sevINFO
  else sevWARNING

/-- Events that construct the client, resolve the method or call it. -/
def Event.isAction : Event → Bool
  | .constructClient => true
  | .getMethod _ => true
  | .callMethod _ => true
  | _ => false

/-- `setLevel` events. -/
def Event.isSetLevel : Event → Bool
  | .setLevel _ => true
  | _ => false

/-- Records below the effective level are never emitted. -/
def emitsRespect (lvl : Nat) : Event → Bool
  | .emit sev _ => decide (lvl ≤ sev)
  | _ => true

/-! ## Lemmas about the parameter step -/

/-- When the `choices` local is already truthy, the docstring step records
neither help nor help-derived choices (the source guard
`if len(split) >= 2 and not choices:` fails). -/
theorem helpStep_truthy (d : List String) (pn : String) (ty? : Option Coe)
    (ch0 : Option (List PyLit)) (ht : pyTruthy ch0 = true) :
    helpStep d pn ty? ch0 = some (none, none) := by
  unfold helpStep
  cases hf : d.find? (fun l => pyStartsWith l pn) with
  | none => rfl
  | some line =>
    cases hsp : splitOnChar ':' line.data with
    | nil => simp only [hsp]
    | cons a t =>
      cases t with
      | nil => simp only [hsp]
      | cons b r => simp only [hsp, ht, if_true]

/-- With a truthy `choices` local, the whole parameter step succeeds and
records exactly the inferred action/type and the type-derived choices,
and no help. -/
theorem processParam_truthy (d : List String) (p : ParamSpec)
    (ht : pyTruthy (inferArgs p.name p.ann).2.2 = true) :
    processParam d p = some
      { required := p.default.isNone
        default := p.default
        action := (inferArgs p.name p.ann).1
        type? := (inferArgs p.name p.ann).2.1
        choices := (inferArgs p.name p.ann).2.2
        help := none } := by
  simp only [processParam]
  rw [helpStep_truthy d p.name _ _ ht]
  simp [ht]

/-! ## C6 -/

/-- C6: for every parameter of a generated command, `required` is true
exactly when the signature has no default (type optionality never plays a
role), the recorded default equals the signature default, and a default is
recorded exactly when the parameter is not required. -/
theorem c6_required_iff_no_default (d : List String) (p : ParamSpec) (a : ArgSpec)
    (h : processParam d p = some a) :
    a.required = p.default.isNone ∧ a.default = p.default ∧
      a.default.isSome = !a.required := by
  simp only [processParam] at h
  rcases hh : helpStep d p.name (inferArgs p.name p.ann).2.1
      (inferArgs p.name p.ann).2.2 with _ | ⟨hlp, hC⟩
  · rw [hh] at h; cases h
  · rw [hh] at h
    cases h
    refine ⟨rfl, rfl, ?_⟩
    cases p.default <;> rfl

/-- C6 witness: a parameter with a default is recorded optional, with its
default present. -/
theorem c6_witness :
    (ArgSpec.mk false (some (PyVal.int 10)) false (some (Coe.ofType .int))
        none none).required = (some (PyVal.int 10)).isNone ∧
      (ArgSpec.mk false (some (PyVal.int 10)) false (some (Coe.ofType .int))
        none none).default = some (PyVal.int 10) ∧
      (ArgSpec.mk false (some (PyVal.int 10)) false (some (Coe.ofType .int))
        none none).default.isSome =
        !(ArgSpec.mk false (some (PyVal.int 10)) false (some (Coe.ofType .int))
          none none).required :=
  c6_required_iff_no_default [] ⟨"limit", some .int, some (.int 10)⟩ _ (by decide)

/-! ## C2 -/

/-- C2 counterexample: a parameter with a `Literal`-derived choice set and a
docstring line matching the `one of` pattern.  The pattern does match the
help text (first conjunct), yet the recorded choices are the type-derived
ones, no help is recorded at all, and the help-derived set differs — the
claim that the help-derived set is the one recorded is false here. -/
theorem c2_counterexample :
    oneOfChoices "the kind, one of (x, y)" = some ["x", "y"] ∧
    processParam ["kind: the kind, one of (x, y)"]
        ⟨"kind", some (.literal [.s "a", .s "b"]), some (.str "a")⟩ =
      some ⟨false, some (.str "a"), false, some (.ofType .str),
        some [.s "a", .s "b"], none⟩ ∧
    ([PyLit.s "a", PyLit.s "b"] ≠ [PyLit.s "x", PyLit.s "y"]) := by
  refine ⟨by decide, by decide, by decide⟩

/-- C2 (amended): when a parameter has a (necessarily nonempty)
type-derived choice set, the docstring help branch is skipped entirely:
the type-derived set is what gets recorded, and no help text is recorded
(so neither help-derived choices nor a bracketed type suffix exist). -/
theorem c2_amended (d : List String) (p : ParamSpec) (vals : List PyLit)
    (hann : p.ann = some (.literal vals)) (hne : vals ≠ []) :
    ∃ a, processParam d p = some a ∧ a.choices = some vals ∧ a.help = none := by
  have hinf : inferArgs p.name p.ann = (false, (litTy vals).map .ofType, some vals) := by
    rw [hann]; simp [inferArgs, is_optional]
  have ht : pyTruthy (inferArgs p.name p.ann).2.2 = true := by
    rw [hinf]
    cases vals with
    | nil => exact absurd rfl hne
    | cons v vs => rfl
  refine ⟨_, processParam_truthy d p ht, ?_, rfl⟩
  simp [hinf]

/-- C2 witness for the amended statement, at a concrete literal-typed
parameter whose doc line matches the `one of` pattern. -/
theorem c2_amended_witness :
    ∃ a, processParam ["kind: the kind, one of (x, y)"]
        ⟨"kind", some (.literal [.s "a", .s "b"]), some (.str "a")⟩ = some a ∧
      a.choices = some [PyLit.s "a", PyLit.s "b"] ∧ a.help = none :=
  c2_amended ["kind: the kind, one of (x, y)"]
    ⟨"kind", some (.literal [.s "a", .s "b"]), some (.str "a")⟩
    [PyLit.s "a", PyLit.s "b"] rfl (by decide)

/-! ## C4 -/

/-- C4 counterexample: an optional string parameter whose name ends in
`_id` receives the plain `str` coercion from the `is_optional` branch, not
the identifier-string (`uuid_type`) coercion the claim requires — while
the same name with a bare `str` annotation does get `uuid_type`. -/
theorem c4_counterexample :
    inferArgs "raster_id" (some (.opt .str)) =
        (false, some (.ofType .str), none) ∧
      (some (Coe.ofType .str) : Option Coe) ≠ some Coe.uuidType ∧
      inferArgs "raster_id" (some .str) = (false, some Coe.uuidType, none) := by
  refine ⟨by decide, by decide, by decide⟩

/-- C4 (amended): an optional wrapper around an inner type is unwrapped,
and the *inner type object itself* becomes the argparse `type` — for
`Optional[bool]` the boolean toggle fires (its own earlier branch), but
for every other inner type the recorded coercion is the plain inner type;
in particular an optional string parameter named with the `_id` suffix
gets plain `str`, bypassing the identifier-string validation. -/
theorem c4_amended (name : String) (t : PyType) :
    inferArgs name (some (.opt t)) =
      if t = .bool then (true, none, none)
      else (false, some (.ofType t), none) := by
  by_cases hb : t = .bool
  · subst hb; simp [inferArgs]
  · simp [inferArgs, is_optional, hb]

/-! ## C10 -/

/-- C10: whenever choices are extracted from help text (possible only when
no type-derived choice set exists), every recorded choice value is a raw
string, independent of the coercion kind; concretely, an `int`-coerced
parameter with a `one of (1, 2, 3)` help line records the *string* choices
`"1"`, `"2"`, `"3"` (single quotes removed, whitespace stripped), and its
help keeps the bracketed type suffix. -/
theorem c10_help_choices_are_strings :
    (∀ (d : List String) (p : ParamSpec) (a : ArgSpec),
      processParam d p = some a →
      (inferArgs p.name p.ann).2.2 = none →
      ∀ c ∈ a.choices.getD [], ∃ v, c = PyLit.s v) ∧
    processParam ["count: how many, one of (1, 2, 3)"]
        ⟨"count", some .int, some (.int 1)⟩ =
      some ⟨false, some (.int 1), false, some (.ofType .int),
        some [.s "1", .s "2", .s "3"],
        some "how many, one of (1, 2, 3) [int]"⟩ := by
  constructor
  · intro d p a h h0 c hc
    simp only [processParam] at h
    rcases hh : helpStep d p.name (inferArgs p.name p.ann).2.1
        (inferArgs p.name p.ann).2.2 with _ | ⟨hlp, hC⟩
    · rw [hh] at h; cases h
    · rw [hh] at h
      cases h
      cases hC with
      | none =>
        rw [h0] at hc
        simp [pyTruthy] at hc
      | some cs =>
        by_cases htr : pyTruthy (some (cs.map PyLit.s)) = true
        · simp only [htr, if_pos] at hc
          simp only [Option.getD_some] at hc
          rcases List.mem_map.mp hc with ⟨v, _, hv⟩
          exact ⟨v, hv.symm⟩
        · simp only [Bool.not_eq_true] at htr
          simp [htr] at hc
  · decide

/-- C10 witness: the universal part applied at the concrete `int`-coerced
parameter. -/
theorem c10_witness : ∃ v, PyLit.s "1" = PyLit.s v :=
  c10_help_choices_are_strings.1 ["count: how many, one of (1, 2, 3)"]
    ⟨"count", some .int, some (.int 1)⟩
    ⟨false, some (.int 1), false, some (.ofType .int),
      some [.s "1", .s "2", .s "3"],
      some "how many, one of (1, 2, 3) [int]"⟩
    (by decide) (by decide) (PyLit.s "1") (by decide)

/-! ## Lemmas about the dispatcher -/

/-- `verbEvents` performs exactly the `setLevel` described by `levelOf`
(none at verbosity 0), and leaves the effective level at `levelOf`. -/
theorem verbEvents_eq (v : Nat) :
    verbEvents v = ((if v = 0 then [] else [.setLevel (levelOf v)]), levelOf v) := by
  unfold verbEvents levelOf
  by_cases h0 : v = 0
  · simp [h0]
  · by_cases h3 : 3 ≤ v
    · simp [h0, h3]
    · by_cases h2 : v = 2
      · simp [h0, h3, h2]
      · simp [h0, h3, h2]

/-- The effective level is never above critical. -/
theorem levelOf_le (v : Nat) : levelOf v ≤ sevCRITICAL := by
  unfold levelOf sevCRITICAL sevDEBUG sevINFO sevWARNING
  by_cases h0 : v = 0
  · simp [h0]
  · by_cases h3 : 3 ≤ v
    · simp [h0, h3]
    · by_cases h2 : v = 2 <;> simp [h0, h3, h2]

/-- Any member of a `logAt` run is the emitted record, and it passed the
severity filter. -/
theorem logAt_mem (lvl sev : Nat) (msg : String) (e : Event)
    (he : e ∈ logAt lvl sev msg) : e = .emit sev msg ∧ lvl ≤ sev := by
  unfold logAt at he
  split at he
  · simp at he
    exact ⟨he, by assumption⟩
  · simp at he

/-- At nonzero verbosity the very first dispatcher trace event is the
`setLevel` for the mapped severity: the level is applied before any other
dispatch action. -/
theorem handle_head (reg : CommandsMap) (env : List String)
    (client : ClientModel) (o : Options) (h0 : o.verbose ≠ 0) :
    (handle_command reg env client o).1.head? =
      some (.setLevel (levelOf o.verbose)) := by
  simp only [handle_command, verbEvents_eq, h0, if_false]
  split
  · split
    · simp
    · split
      · split <;> simp
      · simp
  · simp

/-- Log runs satisfy a predicate as soon as the predicate accepts the
emitted record whenever it passes the filter. -/
theorem logAt_all (p : Event → Bool) (lvl sev : Nat) (msg : String)
    (h : lvl ≤ sev → p (.emit sev msg) = true) :
    (logAt lvl sev msg).all p = true := by
  unfold logAt
  split
  · simpa using h (by assumption)
  · rfl

/-- Master lemma: a predicate holds of every dispatcher trace event as soon
as it holds of the verbosity events, of every emitted record that passed
the `levelOf` filter, and of the client-action events. -/
theorem handle_all (reg : CommandsMap) (env : List String)
    (client : ClientModel) (o : Options) (p : Event → Bool)
    (hverb : ((verbEvents o.verbose).1.all p) = true)
    (hemit : ∀ sev msg, levelOf o.verbose ≤ sev → p (.emit sev msg) = true)
    (hcc : p .constructClient = true)
    (hgm : ∀ m, p (.getMethod m) = true)
    (hcm : ∀ m, p (.callMethod m) = true)
    (hpo : ∀ v, p (.printOut v) = true) :
    (handle_command reg env client o).1.all p = true := by
  have hsnd : (verbEvents o.verbose).2 = levelOf o.verbose := by
    rw [verbEvents_eq]
  have hlog : ∀ sev msg, (logAt (levelOf o.verbose) sev msg).all p = true :=
    fun sev msg => logAt_all p _ sev msg (hemit sev msg)
  simp only [handle_command, hsnd]
  split
  · split
    · simp [List.all_append, hverb, hlog]
    · split
      · split <;>
          simp [List.all_append, List.all_cons, hverb, hlog, hcc, hgm, hcm, hpo]
      · simp [List.all_append, List.all_cons, hverb, hlog, hcc, hgm, hcm, hpo]
  · simp [List.all_append, hverb, hlog]

/-! ## C1 -/

/-- C1: while the credential variable is unset, every command — whatever
its registry entry, client or parameters — makes the dispatcher exit via
`sys.exit` (a nonzero status) with a message containing the
missing-variable text, and the trace holds no client construction, no
method resolution and no method call. -/
theorem c1_missing_key_exits_first (reg : CommandsMap) (env : List String)
    (client : ClientModel) (o : Options)
    (h : "PICTERRA_API_KEY" ∉ env) :
    (handle_command reg env client o).2 = .exitMsg (ansi keyErrMsg) ∧
    ansi keyErrMsg = "\x1b[91m" ++ keyErrMsg ++ "\x1b[00m" ∧
    ((handle_command reg env client o).1.all (fun e => !e.isAction)) = true := by
  have hverb : ((verbEvents o.verbose).1.all (fun e => !e.isAction)) = true := by
    rw [verbEvents_eq]
    by_cases h0 : o.verbose = 0 <;> simp [h0, Event.isAction]
  have hlog : ∀ sev msg,
      ((logAt (verbEvents o.verbose).2 sev msg).all (fun e => !e.isAction)) = true :=
    fun sev msg => logAt_all _ _ sev msg (fun _ => by simp [Event.isAction])
  refine ⟨?_, rfl, ?_⟩
  · simp only [handle_command]
    rw [if_neg h]
  · simp only [handle_command]
    rw [if_neg h]
    simp [List.all_append, hverb, hlog]

/-- C1 witness: a concrete zero-parameter command with the variable unset. -/
theorem c1_witness :
    (handle_command [] [] ⟨fun _ => true, fun _ => .ret none⟩
        ⟨0, "detect"⟩).2 = .exitMsg (ansi keyErrMsg) ∧
    ansi keyErrMsg = "\x1b[91m" ++ keyErrMsg ++ "\x1b[00m" ∧
    ((handle_command [] [] ⟨fun _ => true, fun _ => .ret none⟩
        ⟨0, "detect"⟩).1.all (fun e => !e.isAction)) = true :=
  c1_missing_key_exits_first [] [] ⟨fun _ => true, fun _ => .ret none⟩
    ⟨0, "detect"⟩ (by simp)

/-! ## C5 -/

/-- C5: an exception during dispatch that is neither an API error nor a
value error (nor a deliberate `sys.exit`) is caught: the dispatcher logs
it at critical severity and returns normally — the exit status stays the
success one. -/
theorem c5_unclassified_swallowed (reg : CommandsMap) (env : List String)
    (client : ClientModel) (o : Options) (ps : List (String × Option Coe))
    (msg : String)
    (henv : "PICTERRA_API_KEY" ∈ env)
    (hreg : dlookup o.command reg = some ps)
    (hm : client.hasMethod (cmd_arg_to_api_arg o.command) = true)
    (hc : client.call (cmd_arg_to_api_arg o.command) = .otherExc msg) :
    ((handle_command reg env client o).2 = .normal ∧
      Event.emit sevCRITICAL msg ∈ (handle_command reg env client o).1) ∧
    (∀ client2 : ClientModel,
      client2.hasMethod (cmd_arg_to_api_arg o.command) = false →
      (handle_command reg env client2 o).2 = .normal ∧
      Event.emit sevCRITICAL "AttributeError" ∈
        (handle_command reg env client2 o).1) := by
  have h50 : (verbEvents o.verbose).2 ≤ sevCRITICAL := by
    rw [verbEvents_eq]
    exact levelOf_le o.verbose
  have hcrit : ∀ m : String, logAt (verbEvents o.verbose).2 sevCRITICAL m =
      [.emit sevCRITICAL m] := by
    intro m
    unfold logAt
    rw [if_pos h50]
  refine ⟨⟨?_, ?_⟩, ?_⟩
  · simp [handle_command, hreg, hm, hc, henv]
  · simp [handle_command, hreg, hm, hc, henv, hcrit msg]
  · intro client2 hm2
    constructor
    · simp [handle_command, hreg, hm2, henv]
    · simp [handle_command, hreg, hm2, henv, hcrit "AttributeError"]

/-- C5 witness: a concrete run whose method call raises an unclassified
exception. -/
theorem c5_witness :
    (handle_command [("x", [])] ["PICTERRA_API_KEY"]
        ⟨fun _ => true, fun _ => .otherExc "boom"⟩ ⟨1, "x"⟩).2 = .normal ∧
    Event.emit sevCRITICAL "boom" ∈
      (handle_command [("x", [])] ["PICTERRA_API_KEY"]
        ⟨fun _ => true, fun _ => .otherExc "boom"⟩ ⟨1, "x"⟩).1 :=
  (c5_unclassified_swallowed [("x", [])] ["PICTERRA_API_KEY"]
    ⟨fun _ => true, fun _ => .otherExc "boom"⟩ ⟨1, "x"⟩ [] "boom"
    (by simp) (by decide) rfl rfl).1

/-! ## C7 -/

/-- C7 counterexample: at verbosity 0 the run is not silent — a critical
record is still emitted (the effective level stays at the critical
baseline, it is not "no log output"). -/
theorem c7_counterexample :
    (⟨0, "x"⟩ : Options).verbose = 0 ∧
    Event.emit sevCRITICAL "boom" ∈
      (handle_command [("x", [])] ["PICTERRA_API_KEY"]
        ⟨fun _ => true, fun _ => .otherExc "boom"⟩ ⟨0, "x"⟩).1 := by
  exact ⟨rfl, by decide⟩

/-- C7 (amended): verbosity is applied before any other dispatch action —
at nonzero verbosity the `setLevel` for the mapped severity is the first
trace event, at verbosity 0 no `setLevel` happens and the baseline
critical-only severity stays — and every emitted record respects the
mapped severity (1 = warnings and above, 2 = informational and above,
3 or more = full diagnostic trace, 0 = critical only, which is not fully
silent). -/
theorem c7_amended (reg : CommandsMap) (env : List String)
    (client : ClientModel) (o : Options) :
    ((handle_command reg env client o).1.all
        (emitsRespect (levelOf o.verbose))) = true ∧
    (if o.verbose = 0 then
        ((handle_command reg env client o).1.all (fun e => !e.isSetLevel)) = true
      else
        (handle_command reg env client o).1.head? =
          some (.setLevel (levelOf o.verbose))) := by
  constructor
  · apply handle_all
    · rw [verbEvents_eq]
      by_cases h0 : o.verbose = 0 <;> simp [h0, emitsRespect]
    · intro sev msg hle
      simp [emitsRespect, hle]
    · rfl
    · intro m; rfl
    · intro m; rfl
    · intro v; rfl
  · by_cases h0 : o.verbose = 0
    · rw [if_pos h0]
      apply handle_all
      · rw [verbEvents_eq]
        simp [h0]
      · intro sev msg hle; rfl
      · rfl
      · intro m; rfl
      · intro m; rfl
      · intro v; rfl
    · rw [if_neg h0]
      exact handle_head reg env client o h0

/-! ## Lemmas about the UUID model -/

/-- A pattern containing a character absent from the scanned list never
matches, so replacement is the identity. -/
theorem replaceAllGo_no_occ (pat : List Char) (w : Char) (hw : w ∈ pat) :
    ∀ (fuel : Nat) (cs : List Char), w ∉ cs →
      replaceAllGo pat [] fuel cs = cs := by
  intro fuel cs
  induction cs generalizing fuel with
  | nil => intro _; cases fuel <;> rfl
  | cons c rest ih =>
    intro hnc
    cases fuel with
    | zero => rfl
    | succ f =>
      have hpre : ¬(pat ≠ [] ∧ pat.isPrefixOf (c :: rest) = true) := by
        rintro ⟨-, hp⟩
        exact hnc ((List.isPrefixOf_iff_prefix.mp hp).subset hw)
      simp only [replaceAllGo, if_neg hpre]
      rw [ih f (fun h => hnc (List.mem_cons_of_mem c h))]

/-- `pyRemoveAll` is the identity when some pattern character never occurs. -/
theorem pyRemoveAll_no_occ (pat : List Char) (cs : List Char) (w : Char)
    (hw : w ∈ pat) (hnc : w ∉ cs) : pyRemoveAll pat cs = cs :=
  replaceAllGo_no_occ pat w hw cs.length cs hnc

/-- Removing a single character is `filter`. -/
theorem replaceAllGo_single (ch : Char) :
    ∀ (cs : List Char) (fuel : Nat), cs.length ≤ fuel →
      replaceAllGo [ch] [] fuel cs = cs.filter (fun x => x ≠ ch) := by
  intro cs
  induction cs with
  | nil => intro fuel _; cases fuel <;> rfl
  | cons c rest ih =>
    intro fuel hlen
    cases fuel with
    | zero => simp at hlen
    | succ f =>
      by_cases hc : c = ch
      · subst hc
        have hcond : ([c] ≠ [] ∧ [c].isPrefixOf (c :: rest) = true) := by
          refine ⟨by simp, ?_⟩
          simp [List.isPrefixOf]
        simp only [replaceAllGo, if_pos hcond, List.nil_append]
        have : (c :: rest).drop [c].length = rest := by simp
        rw [this, ih f (by simpa using Nat.le_of_succ_le_succ hlen)]
        simp [List.filter_cons]
      · have hcond : ¬([ch] ≠ [] ∧ [ch].isPrefixOf (c :: rest) = true) := by
          rintro ⟨-, hp⟩
          simp [List.isPrefixOf] at hp
          exact hc hp.symm
        simp only [replaceAllGo, if_neg hcond]
        rw [ih f (by simpa using Nat.le_of_succ_le_succ hlen)]
        simp [List.filter_cons, hc]

/-- `pyRemoveAll` of a single character is `filter`. -/
theorem pyRemoveAll_single (ch : Char) (cs : List Char) :
    pyRemoveAll [ch] cs = cs.filter (fun x => x ≠ ch) :=
  replaceAllGo_single ch cs cs.length (Nat.le_refl _)

/-- `dropWhile` is the identity when no element satisfies `p`. -/
theorem dropWhile_no_sat (p : Char → Bool) (cs : List Char)
    (h : ∀ c ∈ cs, p c = false) : cs.dropWhile p = cs := by
  cases cs with
  | nil => rfl
  | cons c rest =>
    rw [List.dropWhile_cons, if_neg]
    simp [h c (List.mem_cons_self c rest)]

/-- `stripEnds` is the identity when no element satisfies `p`. -/
theorem stripEnds_no_sat (p : Char → Bool) (cs : List Char)
    (h : ∀ c ∈ cs, p c = false) : stripEnds p cs = cs := by
  unfold stripEnds
  rw [dropWhile_no_sat p cs h,
    dropWhile_no_sat p cs.reverse (fun c hc => h c (List.mem_reverse.mp hc)),
    List.reverse_reverse]

/-- A hexadecimal digit value is at most 15. -/
theorem hexVal?_le (c : Char) (d : Nat) (h : hexVal? c = some d) : d ≤ 15 := by
  unfold hexVal? at h
  split_ifs at h with h1 h2 h3 <;> cases h <;> omega

/-- A hexadecimal digit has code point at least 48. -/
theorem isHexC_ge (c : Char) (h : isHexC c = true) : 48 ≤ c.toNat := by
  unfold isHexC hexVal? at h
  split_ifs at h with h1 h2 h3 <;> first
    | omega
    | simp at h

/-- A hexadecimal digit differs from any concrete non-hex character. -/
theorem hex_ne_char (c : Char) (h : isHexC c = true) (x : Char)
    (hx : isHexC x = false) : c ≠ x := by
  rintro rfl
  rw [h] at hx
  cases hx

/-- Hexadecimal digits are not Python whitespace. -/
theorem hex_not_space (c : Char) (h : isHexC c = true) : isPySpace c = false := by
  unfold isPySpace
  rw [decide_eq_false_iff_not]
  rintro (rfl | rfl | rfl | rfl | rfl | rfl) <;> exact absurd h (by decide)

/-- `goDigits` on an all-hex run succeeds, with the value bounded by the
run length. -/
theorem goDigits_hex (cs : List Char) :
    ∀ acc : Nat, (∀ c ∈ cs, isHexC c = true) →
      ∃ v, goDigits cs acc = some v ∧ v < (acc + 1) * 16 ^ cs.length := by
  induction cs with
  | nil =>
    intro acc _
    refine ⟨acc, rfl, ?_⟩
    simp only [List.length_nil, pow_zero, Nat.mul_one]
    omega
  | cons c rest ih =>
    intro acc h
    have hc : isHexC c = true := h c (List.mem_cons_self c rest)
    have hne : ¬(c = '_') := hex_ne_char c hc '_' (by decide)
    obtain ⟨d, hd⟩ : ∃ d, hexVal? c = some d := by
      unfold isHexC at hc
      exact Option.isSome_iff_exists.mp hc
    have hd15 := hexVal?_le c d hd
    obtain ⟨v, hv, hb⟩ := ih (acc * 16 + d)
      (fun x hx => h x (List.mem_cons_of_mem c hx))
    refine ⟨v, ?_, ?_⟩
    · rw [goDigits.eq_def]
      simp only [if_neg hne, hd]
      exact hv
    · have hstep : acc * 16 + d + 1 ≤ (acc + 1) * 16 := by omega
      calc v < (acc * 16 + d + 1) * 16 ^ rest.length := hb
        _ ≤ ((acc + 1) * 16) * 16 ^ rest.length :=
          Nat.mul_le_mul_right _ hstep
        _ = (acc + 1) * 16 ^ (c :: rest).length := by
          rw [List.length_cons, pow_succ]
          ring

/-- `pyIntHex16` on a nonempty all-hex run succeeds, nonnegative and
bounded by the run length. -/
theorem pyIntHex16_hex (cs : List Char) (hne : cs ≠ [])
    (h : ∀ x ∈ cs, isHexC x = true) :
    ∃ v : Nat, pyIntHex16 cs = some (v : Int) ∧ v < 16 ^ cs.length := by
  have hstrip : stripEnds isPySpace cs = cs :=
    stripEnds_no_sat _ _ (fun c hc => hex_not_space c (h c hc))
  obtain ⟨c, rest, rfl⟩ : ∃ c rest, cs = c :: rest := by
    cases cs with
    | nil => exact absurd rfl hne
    | cons c rest => exact ⟨c, rest, rfl⟩
  have hc := h c (List.mem_cons_self c rest)
  have hsign : stripSign (c :: rest) = (false, c :: rest) := by
    simp only [stripSign]
    rw [if_neg (hex_ne_char c hc '-' (by decide)),
      if_neg (hex_ne_char c hc '+' (by decide))]
  have hpfx : stripPfx (c :: rest) = c :: rest := by
    cases rest with
    | nil => rfl
    | cons c1 r =>
      have hc1 := h c1 (List.mem_cons_of_mem c (List.mem_cons_self c1 r))
      simp only [stripPfx]
      rw [if_neg]
      rintro ⟨-, rfl | rfl⟩ <;> exact absurd hc1 (by decide)
  obtain ⟨d, hd⟩ : ∃ d, hexVal? c = some d := by
    unfold isHexC at hc
    exact Option.isSome_iff_exists.mp hc
  have hd15 := hexVal?_le c d hd
  obtain ⟨v, hv, hb⟩ := goDigits_hex rest d
    (fun x hx => h x (List.mem_cons_of_mem c hx))
  refine ⟨v, ?_, ?_⟩
  · simp only [pyIntHex16, hstrip, hsign, hpfx, parseDigits, hd, hv,
      Option.map_some]
    simp
  · calc v < (d + 1) * 16 ^ rest.length := hb
      _ ≤ 16 * 16 ^ rest.length := Nat.mul_le_mul_right _ (by omega)
      _ = 16 ^ (c :: rest).length := by
        rw [List.length_cons, pow_succ]
        ring

/-- Acceptance implies that `uuid_type` returns the input, verbatim. -/
theorem uuid_type_ok (s : String) (h : (pyUUIDparse s).isSome = true) :
    uuid_type s = .ok s := by
  unfold uuid_type
  cases hp : pyUUIDparse s with
  | none => rw [hp] at h; cases h
  | some v => rfl

/-- Rejection implies the `ArgumentTypeError` message. -/
theorem uuid_type_err (s : String) (h : pyUUIDparse s = none) :
    uuid_type s = .error ("invalid UUID value: " ++ quoteS ++ s ++ quoteS) := by
  unfold uuid_type
  rw [h]

/-- Every character of a canonical UUID looks like a hex digit or a
hyphen. -/
theorem canonical_chars (a b c d e : List Char)
    (ha : a.all isHexC = true) (hb : b.all isHexC = true)
    (hc : c.all isHexC = true) (hd : d.all isHexC = true)
    (he : e.all isHexC = true) :
    ∀ x ∈ a ++ '-' :: b ++ '-' :: c ++ '-' :: d ++ '-' :: e,
      isHexC x = true ∨ x = '-' := by
  have Ha := List.all_eq_true.mp ha
  have Hb := List.all_eq_true.mp hb
  have Hc := List.all_eq_true.mp hc
  have Hd := List.all_eq_true.mp hd
  have He := List.all_eq_true.mp he
  simp only [List.forall_mem_append, List.forall_mem_cons]
  repeat' apply And.intro
  all_goals
    first
      | trivial
      | exact Or.inr rfl
      | exact Or.inr trivial
      | (intro x hx
         exact Or.inl (by
           first
             | exact Ha x hx
             | exact Hb x hx
             | exact Hc x hx
             | exact Hd x hx
             | exact He x hx))

/-- The canonical hyphenated 8-4-4-4-12 hexadecimal shape is accepted by
the modelled `uuid.UUID` constructor. -/
theorem canonical_accept (a b c d e : List Char)
    (la : a.length = 8) (lb : b.length = 4) (lc : c.length = 4)
    (ld : d.length = 4) (le : e.length = 12)
    (ha : a.all isHexC = true) (hb : b.all isHexC = true)
    (hc : c.all isHexC = true) (hd : d.all isHexC = true)
    (he : e.all isHexC = true) :
    (pyUUIDparse (String.mk
      (a ++ '-' :: b ++ '-' :: c ++ '-' :: d ++ '-' :: e))).isSome = true := by
  have hchars := canonical_chars a b c d e ha hb hc hd he
  have hnc : ∀ (w : Char), isHexC w = false → w ≠ '-' →
      w ∉ a ++ '-' :: b ++ '-' :: c ++ '-' :: d ++ '-' :: e := by
    intro w hwhex hwdash hmem
    rcases hchars w hmem with hx | hx
    · rw [hwhex] at hx; cases hx
    · exact hwdash hx
  have h1 : pyRemoveAll ['u', 'r', 'n', ':']
      (a ++ '-' :: b ++ '-' :: c ++ '-' :: d ++ '-' :: e) =
      a ++ '-' :: b ++ '-' :: c ++ '-' :: d ++ '-' :: e :=
    pyRemoveAll_no_occ _ _ ':' (by decide) (hnc ':' (by decide) (by decide))
  have h2 : pyRemoveAll ['u', 'u', 'i', 'd', ':']
      (a ++ '-' :: b ++ '-' :: c ++ '-' :: d ++ '-' :: e) =
      a ++ '-' :: b ++ '-' :: c ++ '-' :: d ++ '-' :: e :=
    pyRemoveAll_no_occ _ _ ':' (by decide) (hnc ':' (by decide) (by decide))
  have h3 : stripEnds (fun x => x = '\x7b' ∨ x = '\x7d')
      (a ++ '-' :: b ++ '-' :: c ++ '-' :: d ++ '-' :: e) =
      a ++ '-' :: b ++ '-' :: c ++ '-' :: d ++ '-' :: e := by
    apply stripEnds_no_sat
    intro x hx
    rw [decide_eq_false_iff_not]
    rintro (rfl | rfl)
    · exact hnc '\x7b' (by decide) (by decide) hx
    · exact hnc '\x7d' (by decide) (by decide) hx
  have hfil : ∀ (l : List Char), l.all isHexC = true →
      l.filter (fun x => x ≠ '-') = l := by
    intro l hl
    apply List.filter_eq_self.mpr
    intro x hx
    have hhex := List.all_eq_true.mp hl x hx
    rw [decide_eq_true_iff]
    exact hex_ne_char x hhex '-' (by decide)
  have h4 : pyRemoveAll ['-']
      (a ++ '-' :: b ++ '-' :: c ++ '-' :: d ++ '-' :: e) =
      a ++ (b ++ (c ++ (d ++ e))) := by
    rw [pyRemoveAll_single]
    simp only [List.filter_append, List.filter_cons]
    rw [hfil a ha, hfil b hb, hfil c hc, hfil d hd, hfil e he]
    simp
  have hlen : (a ++ (b ++ (c ++ (d ++ e)))).length = 32 := by
    simp [la, lb, lc, ld, le]
  have hallhex : ∀ x ∈ a ++ (b ++ (c ++ (d ++ e))), isHexC x = true := by
    simp only [List.forall_mem_append]
    exact ⟨List.all_eq_true.mp ha, List.all_eq_true.mp hb,
      List.all_eq_true.mp hc, List.all_eq_true.mp hd, List.all_eq_true.mp he⟩
  have hne : a ++ (b ++ (c ++ (d ++ e))) ≠ [] := by
    intro hempty
    rw [hempty] at hlen
    simp at hlen
  obtain ⟨v, hv, hvb⟩ := pyIntHex16_hex _ hne hallhex
  have hv128 : (v : Int) < (2 : Int) ^ 128 := by
    have h16 : (16 : Nat) ^ 32 = 2 ^ 128 := by norm_num
    rw [hlen, h16] at hvb
    exact_mod_cast hvb
  have hnn : (0 : Int) ≤ (v : Int) := Int.natCast_nonneg v
  have hclean : uuidHexClean (String.mk
      (a ++ '-' :: b ++ '-' :: c ++ '-' :: d ++ '-' :: e)) =
      a ++ (b ++ (c ++ (d ++ e))) := by
    unfold uuidHexClean
    rw [show (String.mk (a ++ '-' :: b ++ '-' :: c ++ '-' :: d ++ '-' :: e)).data
        = a ++ '-' :: b ++ '-' :: c ++ '-' :: d ++ '-' :: e from rfl]
    rw [h1, h2, h3, h4]
  unfold pyUUIDparse
  rw [hclean, hlen, hv]
  rw [if_pos rfl]
  show (if 0 ≤ (v : Int) ∧ (v : Int) < (2 : Int) ^ 128 then
      some (v : Int).toNat else none).isSome = true
  rw [if_pos ⟨hnn, hv128⟩]
  rfl

/-! ## C3 -/

/-- C3: a `str` parameter named with the `_id` suffix gets the `uuid_type`
coercion; `uuid_type` accepts every canonical hyphenated 8-4-4-4-12 hex
string and returns it as the very same plain string (not a structured
value); and on every rejected input it raises the argparse
`ArgumentTypeError` (a usage error and nonzero exit before any method
call), with the offending value in the message. -/
theorem c3_uuid_param :
    (∀ name : String, pyEndsWith name "_id" = true →
        inferArgs name (some .str) = (false, some .uuidType, none)) ∧
    (∀ a b c d e : List Char,
        a.length = 8 → b.length = 4 → c.length = 4 → d.length = 4 →
        e.length = 12 →
        a.all isHexC = true → b.all isHexC = true → c.all isHexC = true →
        d.all isHexC = true → e.all isHexC = true →
        uuid_type (String.mk (a ++ '-' :: b ++ '-' :: c ++ '-' :: d ++ '-' :: e)) =
          .ok (String.mk (a ++ '-' :: b ++ '-' :: c ++ '-' :: d ++ '-' :: e))) ∧
    (∀ s : String, pyUUIDparse s = none →
        uuid_type s = .error ("invalid UUID value: " ++ quoteS ++ s ++ quoteS)) := by
  refine ⟨?_, ?_, uuid_type_err⟩
  · intro name h
    simp [inferArgs, h]
  · intro a b c d e la lb lc ld le ha hb hc hd he
    exact uuid_type_ok _ (canonical_accept a b c d e la lb lc ld le ha hb hc hd he)

/-- C3 witness: the three parts at concrete inputs. -/
theorem c3_witness :
    inferArgs "raster_id" (some .str) = (false, some .uuidType, none) ∧
    uuid_type (String.mk (['1', '2', '3', '4', '5', '6', '7', '8'] ++
        '-' :: ['a', 'b', 'c', 'd'] ++ '-' :: ['4', 'e', 'f', '0'] ++
        '-' :: ['8', '1', '2', '3'] ++
        '-' :: ['0', '1', '2', '3', '4', '5', '6', '7', '8', '9', 'a', 'b'])) =
      .ok (String.mk (['1', '2', '3', '4', '5', '6', '7', '8'] ++
        '-' :: ['a', 'b', 'c', 'd'] ++ '-' :: ['4', 'e', 'f', '0'] ++
        '-' :: ['8', '1', '2', '3'] ++
        '-' :: ['0', '1', '2', '3', '4', '5', '6', '7', '8', '9', 'a', 'b'])) ∧
    uuid_type "not-a-uuid" =
      .error ("invalid UUID value: " ++ quoteS ++ "not-a-uuid" ++ quoteS) :=
  ⟨c3_uuid_param.1 "raster_id" (by decide),
    c3_uuid_param.2.1 _ _ _ _ _ (by decide) (by decide) (by decide) (by decide)
      (by decide) (by decide) (by decide) (by decide) (by decide) (by decide),
    c3_uuid_param.2.2 "not-a-uuid" (by decide)⟩

/-! ## C9 -/

set_option maxRecDepth 8192 in
/-- C9: whenever the validator succeeds it forwards the input string
verbatim — no canonicalisation to lower case or hyphenated form — and
acceptance follows the lenient CPython `UUID` parsing: unhyphenated hex,
braced, urn-prefixed and upper-case forms all pass, and the version and
variant nibbles are never inspected. -/
theorem c9_lenient_verbatim :
    (∀ s : String, (pyUUIDparse s).isSome = true → uuid_type s = .ok s) ∧
    uuid_type "12345678123456781234567812345678" =
      .ok "12345678123456781234567812345678" ∧
    uuid_type "\x7b12345678-1234-5678-1234-567812345678\x7d" =
      .ok "\x7b12345678-1234-5678-1234-567812345678\x7d" ∧
    uuid_type "urn:uuid:12345678-1234-5678-1234-567812345678" =
      .ok "urn:uuid:12345678-1234-5678-1234-567812345678" ∧
    uuid_type "ABCDEF78-1234-5678-1234-567812345678" =
      .ok "ABCDEF78-1234-5678-1234-567812345678" ∧
    uuid_type "12345678-1234-0678-0234-567812345678" =
      .ok "12345678-1234-0678-0234-567812345678" :=
  ⟨uuid_type_ok, uuid_type_ok _ (by decide), uuid_type_ok _ (by decide),
    uuid_type_ok _ (by decide), uuid_type_ok _ (by decide),
    uuid_type_ok _ (by decide)⟩

set_option maxRecDepth 8192 in
/-- C9 witness: the universal part applied at a concrete accepted input. -/
theorem c9_witness :
    uuid_type "aaaaaaaaaaaaaaaaaaaaaaaaaaaaaaaa" =
      .ok "aaaaaaaaaaaaaaaaaaaaaaaaaaaaaaaa" :=
  c9_lenient_verbatim.1 "aaaaaaaaaaaaaaaaaaaaaaaaaaaaaaaa" (by decide)

/-! ## Lemmas about the registry builder -/

/-- Inserting a fresh key appends. -/
theorem dinsert_fresh (k : String) (v : List (String × Option Coe))
    (m : CommandsMap) (h : ∀ e ∈ m, e.1 ≠ k) :
    dinsert k v m = m ++ [(k, v)] := by
  induction m with
  | nil => rfl
  | cons e rest ih =>
    obtain ⟨k2, v2⟩ := e
    have hne : k ≠ k2 := fun hh => (h (k2, v2) (List.mem_cons_self _ _)) hh.symm
    simp only [dinsert, if_neg hne]
    rw [ih (fun e he => h e (List.mem_cons_of_mem _ he))]
    simp

/-- Re-storing the value already present leaves a dict unchanged. -/
theorem dinsert_self (k : String) (v : List (String × Option Coe))
    (m : CommandsMap) (h : dlookup k m = some v) : dinsert k v m = m := by
  induction m with
  | nil => cases h
  | cons e rest ih =>
    obtain ⟨k2, v2⟩ := e
    by_cases hk : k = k2
    · subst hk
      simp only [dlookup, if_pos rfl] at h
      cases h
      simp [dinsert]
    · simp only [dlookup, if_neg hk] at h
      simp only [dinsert, if_neg hk]
      rw [ih h]

/-- In a dict with pairwise distinct keys, lookup finds the stored pair. -/
theorem dlookup_mem_nodup (m : CommandsMap)
    (hnd : (m.map Prod.fst).Nodup) (k : String)
    (v : List (String × Option Coe)) (hm : (k, v) ∈ m) :
    dlookup k m = some v := by
  induction m with
  | nil => cases hm
  | cons e rest ih =>
    obtain ⟨k2, v2⟩ := e
    simp only [List.map_cons, List.nodup_cons] at hnd
    rcases List.mem_cons.mp hm with hh | hh
    · cases hh
      simp [dlookup]
    · have hk : k ≠ k2 := by
        rintro rfl
        exact hnd.1 (List.mem_map.mpr ⟨(k, v), hh, rfl⟩)
      simp only [dlookup, if_neg hk]
      exact ih hnd.2 hh

/-- In a dict with pairwise distinct keys, a present key occurs once. -/
theorem countP_key_one (m : CommandsMap)
    (hnd : (m.map Prod.fst).Nodup) (k : String)
    (hm : k ∈ m.map Prod.fst) :
    m.countP (fun e => decide (e.1 = k)) = 1 := by
  induction m with
  | nil => cases hm
  | cons e rest ih =>
    obtain ⟨k2, v2⟩ := e
    simp only [List.map_cons, List.nodup_cons] at hnd
    by_cases hk : k2 = k
    · subst hk
      have hz : rest.countP (fun e => decide (e.1 = k2)) = 0 := by
        apply List.countP_eq_zero.mpr
        intro e he
        simp only [decide_eq_true_iff]
        intro hek
        exact hnd.1 (List.mem_map.mpr ⟨e, he, hek⟩)
      simp [List.countP_cons, hz]
    · have hm2 : k ∈ rest.map Prod.fst := by
        rcases List.mem_cons.mp hm with hh | hh
        · exact absurd hh.symm hk
        · exact hh
      have := ih hnd.2 hm2
      simp [List.countP_cons, this, hk]

/-- Hyphenation is injective on names without hyphens (method identifiers
never contain one). -/
theorem hyphenate_inj (x y : String)
    (hx : '-' ∉ x.data) (hy : '-' ∉ y.data)
    (h : api_arg_to_cmd_arg x = api_arg_to_cmd_arg y) : x = y := by
  have hdata : x.data.map (fun c => if c = '_' then '-' else c) =
      y.data.map (fun c => if c = '_' then '-' else c) :=
    congrArg String.data h
  have hlist : ∀ (l1 l2 : List Char), '-' ∉ l1 → '-' ∉ l2 →
      l1.map (fun c => if c = '_' then '-' else c) =
        l2.map (fun c => if c = '_' then '-' else c) → l1 = l2 := by
    intro l1
    induction l1 with
    | nil =>
      intro l2 _ _ hmap
      cases l2 with
      | nil => rfl
      | cons c r => cases hmap
    | cons c r ih =>
      intro l2 h1 h2 hmap
      cases l2 with
      | nil => cases hmap
      | cons c2 r2 =>
        simp only [List.map_cons, List.cons.injEq] at hmap
        have hc : c = c2 := by
          rcases hmap with ⟨hcc, -⟩
          by_cases e1 : c = '_' <;> by_cases e2 : c2 = '_' <;>
            simp only [e1, e2, if_pos, if_neg, if_true, if_false] at hcc
          · rw [e1, e2]
          · exact absurd hcc.symm
              (fun hh => h2 (by rw [hh]; exact List.mem_cons_self _ _))
          · exact absurd hcc
              (fun hh => h1 (by rw [hh]; exact List.mem_cons_self _ _))
          · exact hcc
        subst hc
        rw [ih r2 (fun hh => h1 (List.mem_cons_of_mem _ hh))
          (fun hh => h2 (List.mem_cons_of_mem _ hh)) hmap.2]
  have hxy := hlist x.data y.data hx hy hdata
  cases x
  cases y
  exact congrArg String.mk hxy

/-- `buildParams` only yields the `regOf` entries, in parameter order. -/
theorem buildParams_eq (dl : List String) :
    ∀ (ps : List ParamSpec) (l : List (String × Option Coe)),
      buildParams dl ps = some l →
      l = ps.map (fun p => (p.name, regOf p)) := by
  intro ps
  induction ps with
  | nil =>
    intro l h
    cases h
    rfl
  | cons p rest ih =>
    intro l h
    simp only [buildParams] at h
    cases hp : processParam dl p with
    | none => rw [hp] at h; cases h
    | some a =>
      rw [hp] at h
      cases hr : buildParams dl rest with
      | none => rw [hr] at h; cases h
      | some l2 =>
        rw [hr] at h
        cases h
        rw [List.map_cons, ih l2 hr]

/-- A successful `buildMethod` records exactly `methodRegs`. -/
theorem buildMethod_eq (sig : MethodSig) (r : List (String × Option Coe))
    (h : buildMethod sig = some r) : r = methodRegs sig :=
  buildParams_eq (pyDocLines sig.doc) _ r h

/-- A successful build processed every public member. -/
theorem buildGo_success (ms : List (String × MethodSig)) :
    ∀ (acc M : CommandsMap), buildGo ms acc = some M →
      ∀ p ∈ ms, ¬pyStartsWith p.1 "_" = true →
        buildMethod p.2 = some (methodRegs p.2) := by
  induction ms with
  | nil =>
    intro acc M _ p hp
    cases hp
  | cons q rest ih =>
    intro acc M h p hp hpub
    obtain ⟨n, sig⟩ := q
    simp only [buildGo] at h
    rcases List.mem_cons.mp hp with rfl | hmem
    · rw [if_neg hpub] at h
      cases hb : buildMethod sig with
      | none => rw [hb] at h; cases h
      | some r => exact congrArg some (buildMethod_eq sig r hb)
    · by_cases hstart : pyStartsWith n "_" = true
      · rw [if_pos hstart] at h
        exact ih acc M h p hmem hpub
      · rw [if_neg hstart] at h
        cases hb : buildMethod sig with
        | none => rw [hb] at h; cases h
        | some r =>
          rw [hb] at h
          exact ih _ M h p hmem hpub

/-- The public key of a member of the tail occurs among the tail keys. -/
theorem mem_publicsRegs_key (ms : List (String × MethodSig))
    (p : String × MethodSig) (hp : p ∈ ms) (hpub : ¬pyStartsWith p.1 "_" = true) :
    api_arg_to_cmd_arg p.1 ∈ (publicsRegs ms).map Prod.fst := by
  unfold publicsRegs
  rw [List.map_map]
  exact List.mem_map.mpr ⟨p, List.mem_filter.mpr ⟨hp, by simpa using hpub⟩, rfl⟩

/-- A build from an accumulator with fresh keys appends the public
entries, in member order. -/
theorem buildGo_eq (ms : List (String × MethodSig)) :
    ∀ acc : CommandsMap,
      (∀ p ∈ ms, ¬pyStartsWith p.1 "_" = true →
        ∀ e ∈ acc, e.1 ≠ api_arg_to_cmd_arg p.1) →
      ((publicsRegs ms).map Prod.fst).Nodup →
      (∀ p ∈ ms, ¬pyStartsWith p.1 "_" = true →
        buildMethod p.2 = some (methodRegs p.2)) →
      buildGo ms acc = some (acc ++ publicsRegs ms) := by
  induction ms with
  | nil =>
    intro acc _ _ _
    simp [buildGo, publicsRegs]
  | cons q rest ih =>
    intro acc hdisj hkeys hsucc
    obtain ⟨n, sig⟩ := q
    by_cases hstart : pyStartsWith n "_" = true
    · have hpr : publicsRegs ((n, sig) :: rest) = publicsRegs rest := by
        unfold publicsRegs
        rw [List.filter_cons_of_neg (by simpa using hstart)]
      simp only [buildGo, if_pos hstart]
      rw [hpr] at hkeys
      rw [ih acc (fun p hp => hdisj p (List.mem_cons_of_mem _ hp)) hkeys
        (fun p hp => hsucc p (List.mem_cons_of_mem _ hp)), hpr]
    · have hpr : publicsRegs ((n, sig) :: rest) =
          (api_arg_to_cmd_arg n, methodRegs sig) :: publicsRegs rest := by
        unfold publicsRegs
        rw [List.filter_cons_of_pos (by simpa using hstart)]
        rfl
      have hbm := hsucc (n, sig) (List.mem_cons_self _ _) hstart
      simp only [buildGo, if_neg hstart, hbm]
      have hfresh : ∀ e ∈ acc, e.1 ≠ api_arg_to_cmd_arg n :=
        hdisj (n, sig) (List.mem_cons_self _ _) hstart
      rw [dinsert_fresh _ _ acc hfresh]
      rw [hpr] at hkeys
      simp only [List.map_cons, List.nodup_cons] at hkeys
      have hdisj2 : ∀ p ∈ rest, ¬pyStartsWith p.1 "_" = true →
          ∀ e ∈ acc ++ [(api_arg_to_cmd_arg n, methodRegs sig)],
            e.1 ≠ api_arg_to_cmd_arg p.1 := by
        intro p hp hpub e he
        rcases List.mem_append.mp he with he | he
        · exact hdisj p (List.mem_cons_of_mem _ hp) hpub e he
        · rcases List.mem_singleton.mp he with rfl
          intro hcontra
          have hc2 : api_arg_to_cmd_arg n = api_arg_to_cmd_arg p.1 := hcontra
          apply hkeys.1
          rw [hc2]
          exact mem_publicsRegs_key rest p hp hpub
      rw [ih _ hdisj2 hkeys.2 (fun p hp => hsucc p (List.mem_cons_of_mem _ hp))]
      rw [hpr]
      simp

/-- A rebuild over an accumulator that already stores every public entry
leaves it untouched (Python dict assignment replaces in place). -/
theorem buildGo_stable (ms : List (String × MethodSig)) (acc : CommandsMap)
    (h : ∀ p ∈ ms, ¬pyStartsWith p.1 "_" = true →
      buildMethod p.2 = some (methodRegs p.2) ∧
      dlookup (api_arg_to_cmd_arg p.1) acc = some (methodRegs p.2)) :
    buildGo ms acc = some acc := by
  induction ms with
  | nil => rfl
  | cons q rest ih =>
    obtain ⟨n, sig⟩ := q
    by_cases hstart : pyStartsWith n "_" = true
    · simp only [buildGo, if_pos hstart]
      exact ih (fun p hp => h p (List.mem_cons_of_mem _ hp))
    · obtain ⟨hbm, hlk⟩ := h (n, sig) (List.mem_cons_self _ _) hstart
      simp only [buildGo, if_neg hstart, hbm]
      rw [dinsert_self _ _ acc hlk]
      exact ih (fun p hp => h p (List.mem_cons_of_mem _ hp))

/-! ## C8 -/

/-- C8: from a client type with distinct, hyphen-free public method names,
the registry build produces exactly one command per public method, keyed
by the hyphenated name and mapping each parameter to its coercion; and
rebuilding over the already-populated registry reproduces it exactly
(structurally identical descriptors). -/
theorem c8_registry (members : List (String × MethodSig)) (M : CommandsMap)
    (hnd : (members.map Prod.fst).Nodup)
    (hdash : ∀ n ∈ members.map Prod.fst, '-' ∉ n.data)
    (hb : buildRegistry members = some M) :
    (∀ p ∈ members, ¬pyStartsWith p.1 "_" = true →
      dlookup (api_arg_to_cmd_arg p.1) M = some (methodRegs p.2) ∧
      M.countP (fun e => decide (e.1 = api_arg_to_cmd_arg p.1)) = 1) ∧
    buildGo members M = some M := by
  have hsucc : ∀ p ∈ members, ¬pyStartsWith p.1 "_" = true →
      buildMethod p.2 = some (methodRegs p.2) :=
    buildGo_success members [] M hb
  have hkeys : ((publicsRegs members).map Prod.fst).Nodup := by
    unfold publicsRegs
    rw [List.map_map]
    apply List.Nodup.map_on
    · intro x hx y hy hxy
      have hxm := List.mem_filter.mp hx
      have hym := List.mem_filter.mp hy
      have hnames : x.1 = y.1 :=
        hyphenate_inj x.1 y.1
          (hdash x.1 (List.mem_map.mpr ⟨x, hxm.1, rfl⟩))
          (hdash y.1 (List.mem_map.mpr ⟨y, hym.1, rfl⟩)) hxy
      exact List.inj_on_of_nodup_map hnd hxm.1 hym.1 hnames
    · exact (List.Nodup.of_map _ hnd).filter _
  have hM : M = publicsRegs members := by
    have := buildGo_eq members []
      (fun p _ _ e he => absurd he (List.not_mem_nil e)) hkeys hsucc
    rw [buildRegistry] at hb
    rw [this] at hb
    simpa using hb.symm
  subst hM
  refine ⟨?_, ?_⟩
  · intro p hp hpub
    have hmem : (api_arg_to_cmd_arg p.1, methodRegs p.2) ∈ publicsRegs members := by
      unfold publicsRegs
      exact List.mem_map.mpr ⟨p, List.mem_filter.mpr ⟨hp, by simpa using hpub⟩, rfl⟩
    exact ⟨dlookup_mem_nodup _ hkeys _ _ hmem,
      countP_key_one _ hkeys _ (mem_publicsRegs_key members p hp hpub)⟩
  · apply buildGo_stable
    intro p hp hpub
    refine ⟨hsucc p hp hpub, ?_⟩
    apply dlookup_mem_nodup _ hkeys
    unfold publicsRegs
    exact List.mem_map.mpr ⟨p, List.mem_filter.mpr ⟨hp, by simpa using hpub⟩, rfl⟩

/-- C8 witness: a concrete three-member client, with one private method. -/
theorem c8_witness :
    dlookup "upload-raster"
        [("list-rasters", ([] : List (String × Option Coe))),
          ("upload-raster", [("raster_id", some Coe.uuidType)])] =
      some [("raster_id", some Coe.uuidType)] ∧
    List.countP (fun e => decide (e.1 = "upload-raster"))
        [("list-rasters", ([] : List (String × Option Coe))),
          ("upload-raster", [("raster_id", some Coe.uuidType)])] = 1 :=
  (c8_registry
    [("_private", ⟨[], none⟩),
      ("list_rasters", ⟨[⟨"self", none, none⟩], none⟩),
      ("upload_raster", ⟨[⟨"self", none, none⟩, ⟨"raster_id", some .str, none⟩], none⟩)]
    [("list-rasters", []), ("upload-raster", [("raster_id", some Coe.uuidType)])]
    (by decide) (by decide) (by decide)).1
    ("upload_raster", ⟨[⟨"self", none, none⟩, ⟨"raster_id", some .str, none⟩], none⟩)
    (by decide) (by decide)

end Pycterra
